import Mathlib

/-!
Verification of the secret-storage layer of wxWidgets
(`include/wx/secretstore.h`).

The repository sources contain only the public header: class declarations,
the inline member functions (`wxSecretValue::IsOk`, `operator!=`,
`wxSecretStore::IsOk`, the private constructors storing `m_impl`) and the
documentation comments of the out-of-line members.  The out-of-line bodies
(`secretstore.cpp` and the per-platform backends) are not part of the
sources, so every such body is modelled from the specification; each such
definition carries a doc comment starting with `Modelled from the spec:`.

The embedding:
  * a C++ byte buffer is a `List Nat` (each element one byte);
  * `wxSecretValue` is `unset` (the `m_impl == NULL` state of the header)
    or `set bytes` (an owned copy of the secret bytes);
  * a `wxSecretStoreImpl` backend is an association list from
    (service, user) pairs to secret byte strings;
  * a `World` maps backend identities (numbers standing for the
    `wxSecretStoreImpl*` pointers) to backend states, so that distinct
    handles can be seen to share one backend instance;
  * a `wxSecretStore` handle holds `m_impl : Option Nat`, `none` being the
    invalid (NULL) handle, matching the header's `wxSecretStoreImpl* const
    m_impl` member;
  * each store operation returns its boolean/value result, the (unchanged)
    handle, the updated world and the list of diagnostic messages logged,
    so that the "no diagnostic" clauses of the spec are statable.
-/

/-- A secret value: either unset (`m_impl == NULL` in the header's default
constructor, line 30) or set, owning a copy of the secret bytes.  The two
states are distinct by construction, as the data model section of the spec
requires. -/
inductive wxSecretValue where
  | unset : wxSecretValue
  | set : List Nat → wxSecretValue
deriving DecidableEq

/-- The default constructor `wxSecretValue()` of the header initialises
`m_impl` to NULL, i.e. produces the unset state. -/
def wxSecretValue.mkEmpty : wxSecretValue := wxSecretValue.unset

/-- `IsOk` is inline in the header (line 41): `return m_impl != NULL;` —
true exactly on the set states. -/
def wxSecretValue.IsOk : wxSecretValue → Bool
  | .unset => false
  | .set _ => true

/-- Modelled from the spec: the out-of-line constructor
`wxSecretValue(size_t size, const void *data)` is not in the sources.  The
spec: "Construct(size, data) — copies `size` bytes from `data`; `size == 0`
is legal and produces a set, zero-length value (distinct from unset)." -/
def wxSecretValue.Construct (size : Nat) (data : List Nat) : wxSecretValue :=
  wxSecretValue.set (data.take size)

/-- Modelled from the spec: the out-of-line `GetSize` body is not in the
sources; it reports the length of the owned buffer (0 when unset). -/
def wxSecretValue.GetSize : wxSecretValue → Nat
  | .unset => 0
  | .set bytes => bytes.length

/-- Modelled from the spec: the out-of-line `GetData` body is not in the
sources; it gives read-only access to the owned bytes. -/
def wxSecretValue.GetData : wxSecretValue → List Nat
  | .unset => []
  | .set bytes => bytes

/-- Modelled from the spec: the out-of-line `operator==` body is not in the
sources.  The spec: "two values are equal iff both unset, or both set with
equal length and byte-identical content." -/
def wxSecretValue.beq : wxSecretValue → wxSecretValue → Bool
  | .unset, .unset => true
  | .set a, .set b => a == b
  | _, _ => false

/-- `operator!=` is inline in the header (lines 45-48):
`return !(*this == other);`. -/
def wxSecretValue.bne (a b : wxSecretValue) : Bool := !(a.beq b)

/-- Modelled from the spec: the out-of-line `static Wipe(size, data)` body
is not in the sources.  The spec: "overwrites an arbitrary caller-supplied
memory region with a fixed pattern (e.g., zero)" — the first `size` bytes
of the region are overwritten with zero. -/
def wxSecretValue.Wipe (size : Nat) (data : List Nat) : List Nat :=
  (data.take size).map (fun _ => 0) ++ data.drop size

/-- The ways control can leave the scope owning a `wxSecretValue`. -/
inductive ExitPath where
  | normalReturn : ExitPath
  | earlyReturn : ExitPath
  | failurePropagation : ExitPath
deriving DecidableEq

/-- Observable events of tearing down a secret value's owned buffer. -/
inductive DtorEvent where
  | wipe : Nat → DtorEvent
  | free : DtorEvent
deriving DecidableEq

/-- The backing memory left behind by a destruction, together with the
ordered trace of teardown events. -/
structure DtorResult where
  memory : List Nat
  events : List DtorEvent
deriving DecidableEq

/-- Modelled from the spec: the out-of-line destructor `~wxSecretValue` is
not in the sources.  The spec: "Destruction — wipes the owned buffer, then
releases it."  The whole buffer is wiped and only then freed. -/
def destroyBuffer (buf : List Nat) : DtorResult :=
  { memory := wxSecretValue.Wipe buf.length buf
    events := [DtorEvent.wipe buf.length, DtorEvent.free] }

/-- Modelled from the spec: C++ scope exit runs the destructor
"unconditionally, regardless of how the enclosing scope is exited
(including when propagating a failure)" — the teardown does not depend on
the exit path taken. -/
def scopeExit (_path : ExitPath) (buf : List Nat) : DtorResult :=
  destroyBuffer buf

/-- One stored entry: the (service, user) key and the secret bytes. -/
abbrev Entry := (String × String) × List Nat

/-- The state of one backend instance (`wxSecretStoreImpl`): the entries it
currently persists, as an association list keyed by (service, user). -/
structure wxSecretStoreImpl where
  entries : List Entry
deriving DecidableEq

/-- Modelled from the spec: the backend Save operation of the external
backend capability interface — an upsert: any existing entries for
(service, user) are replaced by the single new entry. -/
def wxSecretStoreImpl.DoSave (b : wxSecretStoreImpl) (service user : String)
    (secret : List Nat) : wxSecretStoreImpl :=
  { entries := ((service, user), secret) ::
      b.entries.filter (fun e => !(decide (e.1 = (service, user)))) }

/-- Modelled from the spec: the backend Load operation — looks up the bytes
of an entry matching (service, user), if any. -/
def wxSecretStoreImpl.DoLoad (b : wxSecretStoreImpl) (service user : String) :
    Option (List Nat) :=
  (b.entries.find? (fun e => decide (e.1 = (service, user)))).map (fun e => e.2)

/-- Modelled from the spec: the backend Delete operation — removes every
entry matching (service, user) and reports whether any entry matched. -/
def wxSecretStoreImpl.DoDelete (b : wxSecretStoreImpl) (service user : String) :
    wxSecretStoreImpl × Bool :=
  ({ entries := b.entries.filter (fun e => !(decide (e.1 = (service, user)))) },
   b.entries.any (fun e => decide (e.1 = (service, user))))

/-- The heap of backend instances: backend identities (standing for the
`wxSecretStoreImpl*` pointers) mapped to backend states, so that two
handles holding the same identity share one backend instance. -/
structure World where
  backend : Nat → wxSecretStoreImpl

/-- Update one backend instance in the world. -/
def World.put (w : World) (id : Nat) (b : wxSecretStoreImpl) : World :=
  ⟨fun j => if j = id then b else w.backend j⟩

/-- A store handle: the header's only data member is
`wxSecretStoreImpl* const m_impl` (line 135), here an optional backend
identity, `none` being the NULL (invalid) handle. -/
structure wxSecretStore where
  m_impl : Option Nat
deriving DecidableEq

/-- `IsOk` is inline in the header (line 98): `return m_impl != NULL;`. -/
def wxSecretStore.IsOk (h : wxSecretStore) : Bool := h.m_impl.isSome

/-- Modelled from the spec: the out-of-line factory `GetDefault()` is not
in the sources.  It returns a handle bound to the platform's default
backend (identity 0), or an invalid handle when the running platform has no
secret-storage facility; the flag says whether the facility exists. -/
def wxSecretStore.GetDefault (platformAvailable : Bool) : wxSecretStore :=
  if platformAvailable then ⟨some 0⟩ else ⟨none⟩

/-- The copy constructor (header line 92): "a copy refers to the same store
as the original" — it shares the `m_impl` pointer. -/
def wxSecretStore.copy (h : wxSecretStore) : wxSecretStore := ⟨h.m_impl⟩

/-- Result of `wxSecretStore::Save`: the boolean result, the handle after
the call (whose `m_impl` is const in the header), the updated world and the
diagnostics logged. -/
structure SaveResult where
  ok : Bool
  handle : wxSecretStore
  world : World
  log : List String

/-- Result of `wxSecretStore::Load`. -/
structure LoadResult where
  value : wxSecretValue
  handle : wxSecretStore
  world : World
  log : List String

/-- Result of `wxSecretStore::Delete`. -/
structure DeleteResult where
  ok : Bool
  handle : wxSecretStore
  world : World
  log : List String

/-- Modelled from the spec: the out-of-line `Save` body is not in the
sources.  On an invalid handle it is a safe no-op returning false; a secret
with no content cannot be stored (storing dereferences the secret's impl);
otherwise it dispatches the upsert to the shared backend and returns true.
The in-memory model backend cannot fail, so no diagnostic is logged (the
genuine-backend-failure branch lives in the external per-OS backends, which
are out of this layer's scope). -/
def wxSecretStore.Save (h : wxSecretStore) (w : World) (service user : String)
    (secret : wxSecretValue) : SaveResult :=
  match h.m_impl with
  | none => ⟨false, h, w, []⟩
  | some id =>
    match secret with
    | .unset => ⟨false, h, w, []⟩
    | .set bytes =>
      ⟨true, h, w.put id ((w.backend id).DoSave service user bytes), []⟩

/-- Modelled from the spec: the out-of-line `Load` body is not in the
sources.  On an invalid handle it is a safe no-op returning the unset
value; otherwise it queries the backend: not-found yields the unset value
with no diagnostic, a match yields a newly-owned set value.  Being a const
member function it leaves both the handle and the backend unchanged. -/
def wxSecretStore.Load (h : wxSecretStore) (w : World) (service user : String) :
    LoadResult :=
  match h.m_impl with
  | none => ⟨wxSecretValue.unset, h, w, []⟩
  | some id =>
    match (w.backend id).DoLoad service user with
    | none => ⟨wxSecretValue.unset, h, w, []⟩
    | some bytes => ⟨wxSecretValue.set bytes, h, w, []⟩

/-- Modelled from the spec: the out-of-line `Delete` body is not in the
sources.  On an invalid handle it is a safe no-op returning false;
otherwise it removes every matching entry from the backend and returns
whether any entry was deleted; not-found logs nothing, and the in-memory
model backend cannot fail, so no diagnostic is ever logged. -/
def wxSecretStore.Delete (h : wxSecretStore) (w : World) (service user : String) :
    DeleteResult :=
  match h.m_impl with
  | none => ⟨false, h, w, []⟩
  | some id =>
    let r := (w.backend id).DoDelete service user
    ⟨r.2, h, w.put id r.1, []⟩

/-- The ways a `wxSecretStore` handle can come into existence: the header
has no public default constructor, only `GetDefault()` and the copy
constructor (the private impl-adopting constructor is reachable only
through `GetDefault`). -/
inductive Constructed : wxSecretStore → Prop where
  | viaDefault (avail : Bool) : Constructed (wxSecretStore.GetDefault avail)
  | viaCopy {h : wxSecretStore} : Constructed h → Constructed h.copy

/-- An empty world: every backend identity maps to a backend holding no
entries; used to instantiate universally quantified theorems. -/
def emptyWorld : World := ⟨fun _ => ⟨[]⟩⟩

/-- A world whose default backend holds one entry. -/
def oneEntryWorld : World := ⟨fun _ => ⟨[(("svcA", "u1"), [7, 7])]⟩⟩

theorem map_zero_eq_replicate (l : List Nat) :
    l.map (fun _ => 0) = List.replicate l.length 0 := by
  induction l with
  | nil => rfl
  | cons a t ih => simp [ih, List.replicate]

theorem wipe_full (buf : List Nat) :
    wxSecretValue.Wipe buf.length buf = List.replicate buf.length 0 := by
  simp [wxSecretValue.Wipe, map_zero_eq_replicate]

/-- Claim C1: on every exit path out of the owning scope — normal return,
early return or failure propagation — destruction of a `wxSecretValue`
first wipes the owned buffer (every byte of the backing memory becomes the
fixed pattern 0, so an original nonzero secret byte is no longer present at
its position) and then releases it: the event trace is wipe followed by
free, unconditionally. -/
theorem c1_destruction_wipes_then_frees (path : ExitPath) (buf : List Nat) :
    (scopeExit path buf).memory = List.replicate buf.length 0 ∧
    (scopeExit path buf).events = [DtorEvent.wipe buf.length, DtorEvent.free] ∧
    (∀ i : Fin buf.length, buf.get i ≠ 0 →
      (scopeExit path buf).memory.getD i.val 0 ≠ buf.get i) := by
  refine ⟨?_, rfl, ?_⟩
  · simp [scopeExit, destroyBuffer, wipe_full]
  · intro i hne
    simp [scopeExit, destroyBuffer, wipe_full, List.getD]
    intro h
    exact hne h.symm

/-- Claim C2: constructing a value from (length of b, b) copies the bytes:
`GetSize` then returns the length of b and `GetData` returns exactly b, for
every byte sequence b including the empty one; a default-constructed value
reports `IsOk() == false`. -/
theorem c2_construct_roundtrip (b : List Nat) :
    (wxSecretValue.Construct b.length b).GetSize = b.length ∧
    (wxSecretValue.Construct b.length b).GetData = b ∧
    wxSecretValue.mkEmpty.IsOk = false := by
  refine ⟨?_, ?_, rfl⟩ <;>
    simp [wxSecretValue.Construct, wxSecretValue.GetSize, wxSecretValue.GetData]

/-- Claim C3: `a == b` holds iff both values are unset, or both are set
with byte-identical content (hence equal length); `a != b` is exactly the
boolean negation of `a == b`. -/
theorem c3_equality_spec (a b : wxSecretValue) :
    (a.beq b = true ↔
      (a = wxSecretValue.unset ∧ b = wxSecretValue.unset) ∨
      (∃ l, a = wxSecretValue.set l ∧ b = wxSecretValue.set l)) ∧
    a.bne b = !(a.beq b) := by
  refine ⟨?_, rfl⟩
  cases a <;> cases b <;> simp [wxSecretValue.beq]
  exact eq_comm

/-- Claim C4: a set-but-zero-length value and the unset value are distinct
states: every value constructed with `size == 0` has `IsOk() == true` and
compares unequal to a default-constructed value, whose `IsOk()` is false. -/
theorem c4_empty_vs_unset (data : List Nat) :
    (wxSecretValue.Construct 0 data).IsOk = true ∧
    (wxSecretValue.Construct 0 data).beq wxSecretValue.mkEmpty = false ∧
    wxSecretValue.mkEmpty.IsOk = false := by
  refine ⟨rfl, ?_, rfl⟩
  simp [wxSecretValue.Construct, wxSecretValue.beq, wxSecretValue.mkEmpty]

theorem World.put_backend_self (w : World) (id : Nat) (b : wxSecretStoreImpl) :
    (w.put id b).backend id = b := by
  simp [World.put]

theorem DoLoad_after_DoSave (b : wxSecretStoreImpl) (service user : String)
    (bytes : List Nat) :
    (b.DoSave service user bytes).DoLoad service user = some bytes := by
  simp [wxSecretStoreImpl.DoSave, wxSecretStoreImpl.DoLoad, List.find?]

/-- Claim C5: Save is an upsert and the last write wins: on a valid handle,
saving a set secret S1 succeeds and an immediate Load yields a value equal
to S1; saving S2 for the same (service, user) afterwards succeeds and Load
then yields S2 — and never S1, whenever S1 and S2 differ. -/
theorem c5_save_upsert_last_write_wins (h : wxSecretStore) (w : World)
    (service user : String) (S1 S2 : wxSecretValue) (id : Nat)
    (hid : h.m_impl = some id) (h1 : S1.IsOk = true) (h2 : S2.IsOk = true)
    (hne : S1.beq S2 = false) :
    (h.Save w service user S1).ok = true ∧
    (h.Load (h.Save w service user S1).world service user).value.beq S1 = true ∧
    (h.Save (h.Save w service user S1).world service user S2).ok = true ∧
    (h.Load (h.Save (h.Save w service user S1).world service user S2).world
      service user).value.beq S2 = true ∧
    (h.Load (h.Save (h.Save w service user S1).world service user S2).world
      service user).value.beq S1 = false := by
  cases S1 with
  | unset => simp [wxSecretValue.IsOk] at h1
  | set b1 =>
    cases S2 with
    | unset => simp [wxSecretValue.IsOk] at h2
    | set b2 =>
      have hb : ¬(b1 = b2) := by
        simp [wxSecretValue.beq] at hne
        exact hne
      refine ⟨?_, ?_, ?_, ?_, ?_⟩ <;>
        simp [wxSecretStore.Save, wxSecretStore.Load, hid,
          World.put_backend_self, DoLoad_after_DoSave, wxSecretValue.beq]
      intro habs
      exact hb habs.symm

/-- Witness for C5: on the default handle over the empty world, saving
byte string 1 then byte string 2 under service svcA and user u1 makes Load
return the second secret and not the first. -/
theorem c5_witness :
    ((wxSecretStore.mk (some 0)).m_impl = some 0 ∧
     (wxSecretValue.set [1]).IsOk = true ∧
     (wxSecretValue.set [2]).IsOk = true ∧
     (wxSecretValue.set [1]).beq (wxSecretValue.set [2]) = false) ∧
    ((wxSecretStore.mk (some 0)).Save emptyWorld "svcA" "u1"
        (wxSecretValue.set [1])).ok = true ∧
    ((wxSecretStore.mk (some 0)).Load
        ((wxSecretStore.mk (some 0)).Save emptyWorld "svcA" "u1"
          (wxSecretValue.set [1])).world "svcA" "u1").value.beq
      (wxSecretValue.set [1]) = true ∧
    ((wxSecretStore.mk (some 0)).Save
        ((wxSecretStore.mk (some 0)).Save emptyWorld "svcA" "u1"
          (wxSecretValue.set [1])).world "svcA" "u1"
        (wxSecretValue.set [2])).ok = true ∧
    ((wxSecretStore.mk (some 0)).Load
        ((wxSecretStore.mk (some 0)).Save
          ((wxSecretStore.mk (some 0)).Save emptyWorld "svcA" "u1"
            (wxSecretValue.set [1])).world "svcA" "u1"
          (wxSecretValue.set [2])).world "svcA" "u1").value.beq
      (wxSecretValue.set [2]) = true ∧
    ((wxSecretStore.mk (some 0)).Load
        ((wxSecretStore.mk (some 0)).Save
          ((wxSecretStore.mk (some 0)).Save emptyWorld "svcA" "u1"
            (wxSecretValue.set [1])).world "svcA" "u1"
          (wxSecretValue.set [2])).world "svcA" "u1").value.beq
      (wxSecretValue.set [1]) = false :=
  ⟨⟨rfl, rfl, rfl, by decide⟩,
   c5_save_upsert_last_write_wins (wxSecretStore.mk (some 0)) emptyWorld
     "svcA" "u1" (wxSecretValue.set [1]) (wxSecretValue.set [2]) 0
     rfl rfl rfl (by decide)⟩

/-- Claim C6: on a valid handle, loading a (service, user) pair for which
the backend holds no entry returns the unset value (`IsOk() == false`) and
logs no diagnostic. -/
theorem c6_load_not_found (h : wxSecretStore) (w : World)
    (service user : String) (id : Nat) (hid : h.m_impl = some id)
    (hno : ∀ e ∈ (w.backend id).entries, e.1 ≠ (service, user)) :
    (h.Load w service user).value = wxSecretValue.unset ∧
    (h.Load w service user).value.IsOk = false ∧
    (h.Load w service user).log = [] := by
  have hfind : (w.backend id).DoLoad service user = none := by
    simp [wxSecretStoreImpl.DoLoad, List.find?_eq_none]
    intro a b bs hmem ha hb
    exact hno ((a, b), bs) hmem (by rw [ha, hb])
  simp [wxSecretStore.Load, hid, hfind, wxSecretValue.IsOk]

/-- Witness for C6: loading a never-saved pair from the empty world on the
default handle yields the unset value and an empty log. -/
theorem c6_witness :
    ((wxSecretStore.mk (some 0)).m_impl = some 0 ∧
     ∀ e ∈ (emptyWorld.backend 0).entries, e.1 ≠ ("svcA", "u1")) ∧
    ((wxSecretStore.mk (some 0)).Load emptyWorld "svcA" "u1").value =
      wxSecretValue.unset ∧
    ((wxSecretStore.mk (some 0)).Load emptyWorld "svcA" "u1").value.IsOk =
      false ∧
    ((wxSecretStore.mk (some 0)).Load emptyWorld "svcA" "u1").log = [] :=
  ⟨⟨rfl, by simp [emptyWorld]⟩,
   c6_load_not_found (wxSecretStore.mk (some 0)) emptyWorld "svcA" "u1" 0
     rfl (by simp [emptyWorld])⟩

/-- Claim C7: on a valid handle, Delete removes every entry matching
(service, user) from the backend; it returns true exactly when one or more
entries matched (so zero matches yield false); and no diagnostic is logged
— in this error-free in-memory backend no genuine backend error can occur,
so in particular not-found is silent. -/
theorem c7_delete_semantics (h : wxSecretStore) (w : World)
    (service user : String) (id : Nat) (hid : h.m_impl = some id) :
    ((h.Delete w service user).world.backend id).entries.all
      (fun e => !(decide (e.1 = (service, user)))) = true ∧
    (h.Delete w service user).ok =
      (w.backend id).entries.any (fun e => decide (e.1 = (service, user))) ∧
    (h.Delete w service user).log = [] := by
  refine ⟨?_, ?_, ?_⟩ <;>
    simp [wxSecretStore.Delete, hid, wxSecretStoreImpl.DoDelete,
      World.put_backend_self, List.all_eq_true, List.mem_filter]

/-- Witness for C7: deleting from the one-entry world on the default
handle removes the matching entry, returns true, and logs nothing. -/
theorem c7_witness :
    (wxSecretStore.mk (some 0)).m_impl = some 0 ∧
    (((wxSecretStore.mk (some 0)).Delete oneEntryWorld "svcA"
        "u1").world.backend 0).entries.all
      (fun e => !(decide (e.1 = ("svcA", "u1")))) = true ∧
    ((wxSecretStore.mk (some 0)).Delete oneEntryWorld "svcA" "u1").ok =
      (oneEntryWorld.backend 0).entries.any
        (fun e => decide (e.1 = ("svcA", "u1"))) ∧
    ((wxSecretStore.mk (some 0)).Delete oneEntryWorld "svcA" "u1").log = [] :=
  ⟨rfl,
   c7_delete_semantics (wxSecretStore.mk (some 0)) oneEntryWorld "svcA" "u1"
     0 rfl⟩

/-- Claim C8: every operation invoked on an invalid handle (IsOk false) is
a safe no-op returning failure: Save returns false, Load returns the unset
value, Delete returns false; the handle and the world are untouched and no
diagnostic is logged. -/
theorem c8_invalid_handle_noop (h : wxSecretStore) (w : World)
    (service user : String) (s : wxSecretValue) (hbad : h.IsOk = false) :
    h.Save w service user s = ⟨false, h, w, []⟩ ∧
    h.Load w service user = ⟨wxSecretValue.unset, h, w, []⟩ ∧
    h.Delete w service user = ⟨false, h, w, []⟩ := by
  have hnone : h.m_impl = none := by
    cases hm : h.m_impl with
    | none => rfl
    | some id => simp [wxSecretStore.IsOk, hm] at hbad
  refine ⟨?_, ?_, ?_⟩ <;>
    simp [wxSecretStore.Save, wxSecretStore.Load, wxSecretStore.Delete, hnone]

/-- Witness for C8: the NULL handle over the empty world. -/
theorem c8_witness :
    (wxSecretStore.mk none).IsOk = false ∧
    (wxSecretStore.mk none).Save emptyWorld "svcA" "u1" wxSecretValue.unset =
      ⟨false, wxSecretStore.mk none, emptyWorld, []⟩ ∧
    (wxSecretStore.mk none).Load emptyWorld "svcA" "u1" =
      ⟨wxSecretValue.unset, wxSecretStore.mk none, emptyWorld, []⟩ ∧
    (wxSecretStore.mk none).Delete emptyWorld "svcA" "u1" =
      ⟨false, wxSecretStore.mk none, emptyWorld, []⟩ :=
  ⟨rfl,
   c8_invalid_handle_noop (wxSecretStore.mk none) emptyWorld "svcA" "u1"
     wxSecretValue.unset rfl⟩

/-- Claim C9: the handle state machine.  A copy references the same
backend instance (same `m_impl`); `GetDefault` yields a valid handle
exactly when the platform facility is available; every handle constructed
through the public surface (GetDefault or copying) that is valid is the
default handle, i.e. validity arises only via GetDefault succeeding or
copying a valid handle; and Save, Load and Delete return the handle
unchanged (its `m_impl` is const), so no Valid to Invalid transition
exists during a handle's lifetime. -/
theorem c9_handle_state_machine (hdl g : wxSecretStore) (w : World)
    (avail : Bool) (service user : String) (s : wxSecretValue)
    (hg : Constructed g) (hok : g.IsOk = true) :
    hdl.copy.m_impl = hdl.m_impl ∧
    (wxSecretStore.GetDefault avail).IsOk = avail ∧
    g = wxSecretStore.GetDefault true ∧
    (hdl.Save w service user s).handle = hdl ∧
    (hdl.Load w service user).handle = hdl ∧
    (hdl.Delete w service user).handle = hdl := by
  have hsave : (hdl.Save w service user s).handle = hdl := by
    cases hm : hdl.m_impl <;> cases s <;> simp [wxSecretStore.Save, hm]
  have hload : (hdl.Load w service user).handle = hdl := by
    cases hm : hdl.m_impl with
    | none => simp [wxSecretStore.Load, hm]
    | some id =>
      cases hf : (w.backend id).DoLoad service user <;>
        simp [wxSecretStore.Load, hm, hf]
  have hdel : (hdl.Delete w service user).handle = hdl := by
    cases hm : hdl.m_impl <;> simp [wxSecretStore.Delete, hm]
  have hgd : g = wxSecretStore.GetDefault true := by
    induction hg with
    | viaDefault a =>
      cases a with
      | false => simp [wxSecretStore.GetDefault, wxSecretStore.IsOk] at hok
      | true => rfl
    | viaCopy hc ih =>
      rw [wxSecretStore.copy, ih hok]
  have hdef : (wxSecretStore.GetDefault avail).IsOk = avail := by
    cases avail <;> rfl
  exact ⟨rfl, hdef, hgd, hsave, hload, hdel⟩

/-- Witness for C9 at the default handle and the empty world. -/
theorem c9_witness :
    (Constructed (wxSecretStore.GetDefault true) ∧
     (wxSecretStore.GetDefault true).IsOk = true) ∧
    (wxSecretStore.mk (some 0)).copy.m_impl =
      (wxSecretStore.mk (some 0)).m_impl ∧
    (wxSecretStore.GetDefault true).IsOk = true ∧
    wxSecretStore.GetDefault true = wxSecretStore.GetDefault true ∧
    ((wxSecretStore.mk (some 0)).Save emptyWorld "svcA" "u1"
        (wxSecretValue.set [1])).handle = wxSecretStore.mk (some 0) ∧
    ((wxSecretStore.mk (some 0)).Load emptyWorld "svcA" "u1").handle =
      wxSecretStore.mk (some 0) ∧
    ((wxSecretStore.mk (some 0)).Delete emptyWorld "svcA" "u1").handle =
      wxSecretStore.mk (some 0) :=
  ⟨⟨Constructed.viaDefault true, rfl⟩,
   c9_handle_state_machine (wxSecretStore.mk (some 0))
     (wxSecretStore.GetDefault true) emptyWorld true "svcA" "u1"
     (wxSecretValue.set [1]) (Constructed.viaDefault true) rfl⟩

/-- Claim C10: Load is const on the handle: it returns the handle it was
called on unchanged, with the same validity, and also leaves the world of
backend instances untouched. -/
theorem c10_load_is_const (h : wxSecretStore) (w : World)
    (service user : String) :
    (h.Load w service user).handle = h ∧
    (h.Load w service user).handle.IsOk = h.IsOk ∧
    (h.Load w service user).world = w := by
  have hmain : (h.Load w service user).handle = h ∧
      (h.Load w service user).world = w := by
    cases hm : h.m_impl with
    | none => simp [wxSecretStore.Load, hm]
    | some id =>
      cases hf : (w.backend id).DoLoad service user <;>
        simp [wxSecretStore.Load, hm, hf]
  exact ⟨hmain.1, by rw [hmain.1], hmain.2⟩
